import Mathlib

/-!
Shallow embedding of the gun-violence-dashboard data pipeline
(`gun_violence_dashboard_data`): the shooting-victims fetch and its
validation checks (`shootings.py`), the geographic enrichment step
(`add_geographic_info`), the yearly persister (`ShootingVictimsData.save`),
the homicide daily-series updater (`PPDHomicideTotal.update`,
`homicides.py`), the court-case scraper driver and merge (`courts.py`),
and the `meta.json` bookkeeping of the daily update (`__main__.py`).

Data frames are modelled as lists of rows; pandas NaN / missing values are
modelled with `Option`; errors raised by the Python code are modelled with
`Except String`.
-/

namespace GVDash

/-- A calendar date/timestamp, split into the year component (the only
component the code inspects) and an opaque sub-year component (month, day,
time collapsed into one ordinal) used for equality and ordering. -/
structure MDate where
  year : Int
  sub : Nat
deriving DecidableEq, Repr

/-- Ordering on dates: `mdateAfter a b` means `a` is strictly later
than `b` (lexicographic on year then sub-year ordinal). -/
def mdateAfter (a b : MDate) : Bool :=
  a.year > b.year || (a.year == b.year && a.sub > b.sub)

/-! ### AnomalyDetector: batch-size checks in `ShootingVictimsData.get`

Embeds the CHECKS block of `shootings.py` (lines 374-394): comparing the
length of the freshly fetched batch to the length of the previously
persisted snapshot, with hard tolerances of +100 and -10, skipped entirely
when `ignore_checks` is set. -/

/-- Embedding of the batch-size checks in `ShootingVictimsData.get`:
fatal if the new batch exceeds the old snapshot by strictly more than 100
rows, fatal if it falls short by strictly more than 10 rows, and skipped
entirely when `ignore_checks` is set. -/
def anomalyCheck (ignoreChecks : Bool) (newLen oldLen : Nat) : Except String Unit :=
  if ignoreChecks then .ok ()
  else if (newLen : Int) - (oldLen : Int) > 100 then
    .error "New data seems to have too many rows...please manually confirm new data is correct."
  else if (oldLen : Int) - (newLen : Int) > 10 then
    .error "New data seems to have too few rows...please manually confirm new data is correct."
  else .ok ()

/-! ### Age buckets: the `age_group` derivation in `ShootingVictimsData.get`

Embeds the `np.select` call of `shootings.py` (lines 339-348). Ages in the
feed are whole years (or missing), modelled as `Option Int`; `np.select`
evaluates the condition list in order and returns the label of the first
true condition, with `"Unknown"` as the default (a missing age makes every
comparison false). -/

/-- Embedding of the `age_group` bucket derivation (`np.select` over the
four age conditions, default `"Unknown"` for a missing age). -/
def ageGroup (age : Option Int) : String :=
  match age with
  | some a =>
    if a ≤ 17 then "Younger than 18"
    else if 17 < a ∧ a ≤ 30 then "18 to 30"
    else if 30 < a ∧ a ≤ 45 then "31 to 45"
    else if 45 < a then "Older than 45"
    else "Unknown"
  | none => "Unknown"

/-- The bucket boundaries exactly as the spec sentence states them:
age < 18, 18 ≤ age ≤ 30, 30 < age ≤ 45, age > 45, missing = Unknown. -/
def specAgeGroup (age : Option Int) : String :=
  match age with
  | some a =>
    if a < 18 then "Younger than 18"
    else if 18 ≤ a ∧ a ≤ 30 then "18 to 30"
    else if 30 < a ∧ a ≤ 45 then "31 to 45"
    else if 45 < a then "Older than 45"
    else "Unknown"
  | none => "Unknown"

/-! ### HomicideSeriesUpdater: `PPDHomicideTotal.update` (`homicides.py`)

The daily series is a list of `(date, total)` rows, sorted ascending by
date (`PPDHomicideTotal.get` sorts before `update` runs). `update` drops
the last row when its date equals the freshly scraped as-of date, appends
the new `(as_of_date, YTD)` row, runs the monotonicity sanity check on the
last two rows, and persists the series deduplicated by date keeping the
last occurrence (`drop_duplicates(subset=["date"], keep="last")`). -/

/-- One row of `homicide_totals_daily.csv`: a date and a YTD total. -/
structure HRow where
  date : MDate
  total : Nat
deriving DecidableEq, Repr

/-- The message of the monotonicity sanity-check failure in
`PPDHomicideTotal.update`. -/
def monotonicityMsg : String :=
  "New YTD homicide total is less than previous YTD total"

/-- Embedding of `drop_duplicates(subset=["date"], keep="last")`: a row is
kept exactly when no later row shares its date. -/
def dropDupKeepLast : List HRow → List HRow
  | [] => []
  | r :: rest =>
    if rest.any (fun x => x.date == r.date) then dropDupKeepLast rest
    else r :: dropDupKeepLast rest

/-- The same-day-correction step of `PPDHomicideTotal.update`: if the
scraped as-of date equals the date of the last database row, that last row
is dropped. -/
def ppdDropSame (db : List HRow) (asOf : MDate) : List HRow :=
  match db.getLast? with
  | none => db
  | some lastRow => if asOf = lastRow.date then db.dropLast else db

/-- The in-memory series after `PPDHomicideTotal.update` has dropped a
possible same-day row and appended the fresh `(as_of_date, YTD)` row. -/
def ppdUpdatedSeries (db : List HRow) (asOf : MDate) (ytd : Nat) : List HRow :=
  ppdDropSame db asOf ++ [⟨asOf, ytd⟩]

/-- Embedding of `PPDHomicideTotal.update`: drop/append, monotonicity
sanity check on the last two rows (`iloc[-1]` / `iloc[-2]`, which raise an
index error when the series is too short), and the persisted series
deduplicated by date keeping the last occurrence. -/
def ppdUpdate (db : List HRow) (asOf : MDate) (ytd : Nat) (force : Bool) :
    Except String (List HRow) :=
  match db.getLast? with
  | none => .error "IndexError"
  | some _ =>
    match (ppdUpdatedSeries db asOf ytd).getLast?,
        (ppdUpdatedSeries db asOf ytd).dropLast.getLast? with
    | some newRow, some prevRow =>
      if force = false ∧ newRow.total < prevRow.total ∧ newRow.date.year = prevRow.date.year
      then .error monotonicityMsg
      else .ok (dropDupKeepLast (ppdUpdatedSeries db asOf ytd))
    | _, _ => .error "IndexError"

/-! ### Court subsystem (`courts.py`)

`run` drives the scraper: it takes the unique dc_keys of the shootings
data, removes the keys the persisted index already marks `has_court_case
== True`, submits the remainder, marks each submitted key by whether the
scrape found a case (left merge with `fillna(False)`), and overwrites the
persisted index file with exactly that output.

`merge` left-joins the shootings batch with the persisted index on
`dc_key` and fills rows absent from the index with `False`. A pandas left
merge suffixes overlapping non-key columns with `_x`/`_y`, so when the
left frame already carries a `has_court_case` column the subsequent
`assign` accesses a column that no longer exists and raises a `KeyError`;
the frame model therefore records whether the column is present. -/

/-- Embedding of `courts.run` restricted to its index bookkeeping:
`existing` is the persisted index if the file exists, `dataKeys` the
dc_keys of the shootings data, `withCases` the deduplicated dc_keys the
scrape found cases for. Returns the output written back to the index
file. -/
def courtsRun (existing : Option (List (String × Bool))) (dataKeys : List String)
    (withCases : List String) : List (String × Bool) :=
  let incidentNumbers := dataKeys.dedup
  let submitted : List String :=
    match existing with
    | some ex =>
      let dataToRemove := ex.filter (fun kv : String × Bool => kv.2 == true)
      incidentNumbers.filter (fun k => !((dataToRemove.map Prod.fst).contains k))
    | none => incidentNumbers
  submitted.map (fun k => (k, withCases.contains k))

/-- A data frame as seen by `courts.merge`: either the `has_court_case`
column is absent (a fresh batch) or present with per-row values (an
already-merged batch); `none` is a NaN entry. -/
inductive CFrame where
  | noCol : List String → CFrame
  | withCol : List (String × Option Bool) → CFrame
deriving DecidableEq, Repr

/-- The pandas left merge on `dc_key` against the index: each row fans out
to one output row per matching index entry, or a single row with NaN when
no index entry matches. -/
def mergeRows (keys : List String) (existing : List (String × Bool)) :
    List (String × Option Bool) :=
  keys.flatMap (fun k =>
    let ms := existing.filter (fun kv => kv.1 == k)
    if ms.isEmpty then [(k, none)] else ms.map (fun kv => (k, some kv.2)))

/-- Embedding of `courts.merge`: left merge with the index then
`fillna(False)`; if the batch already carries a `has_court_case` column
the merge suffixes the overlapping columns and the `assign` raises a
`KeyError`. -/
def courtsMerge (data : CFrame) (existing : List (String × Bool)) : Except String CFrame :=
  match data with
  | .noCol keys =>
    .ok (.withCol ((mergeRows keys existing).map (fun kv => (kv.1, some (kv.2.getD false)))))
  | .withCol _ => .error "KeyError: has_court_case"

/-! ### meta.json bookkeeping: `daily_update` (`__main__.py`)

`daily_update` builds a fresh `meta` dict holding the subsystem timestamps
of the parts that ran, loads the existing `meta.json`, pops the legacy
`last_updated` key if present, applies `existing_meta.update(meta)` and
writes the result back. Dicts are modelled as `String → Option String`. -/

/-- Embedding of the meta.json write: pop the legacy `last_updated` key,
then `dict.update` with the freshly built `meta`. -/
def metaFileUpdate (existingMeta : String → Option String)
    (meta : String → Option String) : String → Option String :=
  fun k =>
    match meta k with
    | some v => some v
    | none => if k = "last_updated" then none else existingMeta k

/-- Embedding of the `meta` dict built by `daily_update`: the homicides
timestamp is written when all parts run or `--homicides-only` is set, the
shootings timestamp when all parts run or `--shootings-only` is set. -/
def dailyUpdateMeta (existingMeta : String → Option String) (now : String)
    (homicidesOnly shootingsOnly : Bool) : String → Option String :=
  let processAll := !(homicidesOnly || shootingsOnly)
  let meta : String → Option String := fun k =>
    if (processAll || homicidesOnly) = true ∧ k = "last_updated_homicides" then some now
    else if (processAll || shootingsOnly) = true ∧ k = "last_updated_shootings" then some now
    else none
  metaFileUpdate existingMeta meta

/-! ### Persister: `ShootingVictimsData.save` (`shootings.py`)

`save` extracts the year of each record, computes
`sorted(np.unique(years), reverse=True)` (the distinct years, descending),
dumps that list as `data_years.json`, and writes each year's rows to that
year's output file (a full rewrite of the file). The model returns the
manifest together with the per-year partitions. -/

/-- One record of the enriched dataset as the persister sees it: its
dc_key and its date. -/
structure SRow where
  dcKey : String
  date : MDate
deriving DecidableEq, Repr

/-- The year component of a record's date. -/
def rowYear (r : SRow) : Int := r.date.year

/-- Insertion into a strictly descending list of distinct years. -/
def insUniq (y : Int) : List Int → List Int
  | [] => [y]
  | x :: xs => if y = x then x :: xs else if y > x then y :: x :: xs else x :: insUniq y xs

/-- Embedding of `sorted(np.unique(years), reverse=True)`: the distinct
years, sorted descending. -/
def uniqueYearsDesc (ys : List Int) : List Int := ys.foldr insUniq []

/-- Embedding of `ShootingVictimsData.save`: the `data_years.json`
manifest and one partition per manifest year holding the rows whose date
falls in that year. -/
def victimsSave (data : List SRow) : List Int × List (Int × List SRow) :=
  let years := data.map rowYear
  let uys := uniqueYearsDesc years
  (uys, uys.map (fun y => (y, data.filter (fun r => rowYear r == y))))

/-! ### Fetch skeleton: `ShootingVictimsData.get` (`shootings.py`)

The parts of `get` the officer-involved claim depends on, in source
order: the `officer_involved == N` filter on the raw feed, the
missing-dc_key check, the future-date removal, and the batch-size anomaly
checks against the previous snapshot length. -/

/-- A raw feed row with the fields `get` inspects before enrichment. -/
structure RawRow where
  dcKey : Option String
  officerInvolved : String
  date : MDate
deriving DecidableEq, Repr

/-- Embedding of the filtering and checking prefix of
`ShootingVictimsData.get`: officer-involved filter, missing-key check,
future-date removal, anomaly checks; returns the surviving batch. -/
def victimsGet (ignoreChecks : Bool) (now : MDate) (raw : List RawRow) (oldLen : Nat) :
    Except String (List RawRow) :=
  if ((raw.filter (fun r => r.officerInvolved == "N")).filter
      (fun r => r.dcKey.isNone)).length ≠ 0 ∧ ignoreChecks = false then
    .error "Found rows with missing DC keys"
  else
    match anomalyCheck ignoreChecks
        ((raw.filter (fun r => r.officerInvolved == "N")).filter
          (fun r => !(mdateAfter r.date now))).length oldLen with
    | .error e => .error e
    | .ok _ =>
      .ok ((raw.filter (fun r => r.officerInvolved == "N")).filter
        (fun r => !(mdateAfter r.date now)))

/-! ### GeoEnricher: `add_geographic_info` (`shootings.py`)

The enrichment step: clear geometries outside the city limits, recover
missing geometries from the external incidents table by a left merge on
`dc_key` (keeping the non-missing rows followed by the merged missing
rows), then for each boundary layer perform a left spatial join (a row
fans out to one joined row per containing polygon, or one row with a null
attribute when nothing contains it) followed by the removal of duplicated
indices keeping the first match, clear the geometry of rows without a
neighborhood, and finally fail if the row count changed.

Polygons are geometric data evaluated only through containment, so a
polygon is modelled by its containment test, a `Pt → Bool` function. -/

/-- A point geometry in the working coordinate system. -/
abbrev Pt := Int × Int

/-- One row of the batch passing through `add_geographic_info`: its
dc_key, its possibly-missing point geometry, and the region attribute
columns appended so far (a `none` value is a null cell). -/
structure GRow where
  dcKey : String
  geometry : Option Pt
  attrs : List (String × Option String)

/-- Append a region attribute column value to a row. -/
def setAttr (r : GRow) (c : String) (v : Option String) : GRow :=
  { r with attrs := r.attrs ++ [(c, v)] }

/-- Read a region attribute of a row; a missing column reads as null. -/
def getAttr (r : GRow) (c : String) : Option String :=
  match r.attrs.lookup c with
  | some v => v
  | none => none

/-- A boundary layer: the attribute column it populates and its polygons,
each paired with the attribute value it contributes. -/
structure GeoLayer where
  col : String
  polys : List ((Pt → Bool) × String)

/-- Containment of a possibly-missing geometry in a polygon; a null
geometry is contained in nothing. -/
def geomWithin (g : Option Pt) (poly : Pt → Bool) : Bool :=
  match g with
  | some p => poly p
  | none => false

/-- Step 1 of `add_geographic_info`: rows outside the city limits get
their geometry cleared. -/
def clearOutside (city : Pt → Bool) (rows : List GRow) : List GRow :=
  rows.map (fun r => if geomWithin r.geometry city then r else { r with geometry := none })

/-- Step 2 of `add_geographic_info`: when the incidents query matched
anything, keep the rows with geometry and left-merge the missing rows
against the incidents deduplicated by dc_key (first match), giving each
missing row the looked-up geometry or null. -/
def recoverGeometry (incidents : List (String × Pt)) (rows : List GRow) : List GRow :=
  if 0 < incidents.length then
    (rows.filter (fun r => !(r.geometry.isNone))) ++
      ((rows.filter (fun r => r.geometry.isNone)).map
        (fun r => { r with geometry := incidents.lookup r.dcKey }))
  else rows

/-- The spatial join of one indexed row with a layer: one output row per
containing polygon, or a single row with a null attribute when no polygon
contains it. -/
def sjoinOne (layer : GeoLayer) (i : Nat) (r : GRow) : List (Nat × GRow) :=
  if (layer.polys.filter (fun pg => geomWithin r.geometry pg.1)).isEmpty then
    [(i, setAttr r layer.col none)]
  else
    (layer.polys.filter (fun pg => geomWithin r.geometry pg.1)).map
      (fun pg => (i, setAttr r layer.col (some pg.2)))

/-- The left spatial join of a batch with a layer, each output row tagged
with the index of the input row it came from. -/
def sjoinAux (layer : GeoLayer) : Nat → List GRow → List (Nat × GRow)
  | _, [] => []
  | i, r :: rs => sjoinOne layer i r ++ sjoinAux layer (i + 1) rs

/-- Embedding of the duplicated-index removal of `_add_geo_info`
(`out.index.duplicated()` keeps the first row per index). -/
def dedupFirst : List Nat → List (Nat × GRow) → List GRow
  | _, [] => []
  | seen, x :: rest =>
    if x.1 ∈ seen then dedupFirst seen rest else x.2 :: dedupFirst (x.1 :: seen) rest

/-- Embedding of `_add_geo_info`: left spatial join then first-match
deduplication by row index. -/
def addGeoInfo (layer : GeoLayer) (rows : List GRow) : List GRow :=
  dedupFirst [] (sjoinAux layer 0 rows)

/-- Step 4 of `add_geographic_info`: rows without a neighborhood
assignment get their geometry cleared. -/
def clearNoNeighborhood (rows : List GRow) : List GRow :=
  rows.map (fun r =>
    if (getAttr r "neighborhood").isNone then { r with geometry := none } else r)

/-- Embedding of `add_geographic_info`: the four enrichment steps
followed by the row-count invariant check, which raises when the count
changed and otherwise returns the enriched batch. -/
def addGeographicInfo (city : Pt → Bool) (incidents : List (String × Pt))
    (layers : List GeoLayer) (rows : List GRow) : Except String (List GRow) :=
  if (clearNoNeighborhood (layers.foldl (fun acc layer => addGeoInfo layer acc)
      (recoverGeometry incidents (clearOutside city rows)))).length ≠ rows.length then
    .error "Length of data has changed; this should not happen!"
  else
    .ok (clearNoNeighborhood (layers.foldl (fun acc layer => addGeoInfo layer acc)
      (recoverGeometry incidents (clearOutside city rows))))

end GVDash

namespace GVDash

/-- A row surviving the keep-last deduplication was in the input. -/
theorem mem_dropDupKeepLast : ∀ {l : List HRow} {x : HRow}, x ∈ dropDupKeepLast l → x ∈ l := by
  intro l
  induction l with
  | nil => intro x h; simp [dropDupKeepLast] at h
  | cons r rest ih =>
    intro x h
    simp only [dropDupKeepLast] at h
    by_cases hany : rest.any (fun y => y.date == r.date)
    · rw [if_pos hany] at h
      exact List.mem_cons_of_mem _ (ih h)
    · rw [if_neg hany] at h
      rcases List.mem_cons.mp h with h1 | h2
      · exact h1 ▸ List.mem_cons_self _ _
      · exact List.mem_cons_of_mem _ (ih h2)

/-- After the keep-last deduplication, dates are pairwise distinct. -/
theorem nodup_dates_dropDupKeepLast (l : List HRow) :
    ((dropDupKeepLast l).map (fun r => r.date)).Nodup := by
  induction l with
  | nil => simp [dropDupKeepLast]
  | cons r rest ih =>
    simp only [dropDupKeepLast]
    by_cases hany : rest.any (fun x => x.date == r.date)
    · rw [if_pos hany]; exact ih
    · rw [if_neg hany]
      simp only [List.map_cons, List.nodup_cons]
      refine ⟨fun hmem => ?_, ih⟩
      rcases List.mem_map.mp hmem with ⟨x, hx, hxd⟩
      exact hany (List.any_eq_true.mpr ⟨x, mem_dropDupKeepLast hx, by simp [hxd]⟩)

/-- The appended row is the last row of the updated series. -/
theorem ppdUpdatedSeries_getLast (db : List HRow) (asOf : MDate) (ytd : Nat) :
    (ppdUpdatedSeries db asOf ytd).getLast? = some ⟨asOf, ytd⟩ := by
  unfold ppdUpdatedSeries
  exact List.getLast?_concat _

/-- Dropping the appended row recovers the series before the append. -/
theorem ppdUpdatedSeries_dropLast (db : List HRow) (asOf : MDate) (ytd : Nat) :
    (ppdUpdatedSeries db asOf ytd).dropLast = ppdDropSame db asOf := by
  unfold ppdUpdatedSeries
  exact List.dropLast_concat

/-- C3: the anomaly check raises a fatal error if and only if the new batch
size exceeds the old snapshot size by strictly more than 100, or falls
short of it by strictly more than 10 (a difference exactly equal to the
tolerance passes), and both checks are skipped when ignore-checks is set. -/
theorem anomalyCheck_error_iff (ignoreChecks : Bool) (newLen oldLen : Nat) :
    (∃ msg, anomalyCheck ignoreChecks newLen oldLen = .error msg) ↔
      (ignoreChecks = false ∧
        ((newLen : Int) - (oldLen : Int) > 100 ∨ (oldLen : Int) - (newLen : Int) > 10)) := by
  unfold anomalyCheck
  by_cases hig : ignoreChecks
  · simp [hig]
  · simp only [hig, if_false, Bool.not_eq_true] at *
    by_cases h1 : (newLen : Int) - (oldLen : Int) > 100
    · simp [h1, hig]
    · by_cases h2 : (oldLen : Int) - (newLen : Int) > 10
      · simp [h1, h2, hig]
      · simp [h1, h2, hig]

/-- Reduction of `ppdUpdate` once the series before the append is known to
be nonempty with last row `prev`: the update is the monotonicity test
between the fresh YTD value and `prev`. -/
theorem ppdUpdate_reduce (db : List HRow) (asOf : MDate) (ytd : Nat) (force : Bool)
    (prev : HRow) (h : (ppdDropSame db asOf).getLast? = some prev) :
    ppdUpdate db asOf ytd force =
      if force = false ∧ ytd < prev.total ∧ asOf.year = prev.date.year
      then .error monotonicityMsg
      else .ok (dropDupKeepLast (ppdUpdatedSeries db asOf ytd)) := by
  cases hdb : db.getLast? with
  | none =>
    have hdbe : db = [] := by
      cases db with
      | nil => rfl
      | cons a l => simp [List.getLast?_concat, List.getLast?] at hdb
    rw [hdbe] at h
    simp [ppdDropSame] at h
  | some lastRow =>
    simp only [ppdUpdate, hdb, ppdUpdatedSeries_getLast, ppdUpdatedSeries_dropLast, h]

/-- C2: the homicide series update fails with the monotonicity error iff
the appended trailing total is strictly lower than the previous trailing
total, both rows fall in the same calendar year, and the force flag is
unset; otherwise (year boundary, non-decreasing total, or force set) the
update is accepted and returns the persisted series. -/
theorem ppdUpdate_monotonicity_iff (db : List HRow) (asOf : MDate) (ytd : Nat) (force : Bool)
    (prev : HRow) (h : (ppdDropSame db asOf).getLast? = some prev) :
    (ppdUpdate db asOf ytd force = .error monotonicityMsg ↔
      (force = false ∧ ytd < prev.total ∧ asOf.year = prev.date.year)) ∧
    (¬ (force = false ∧ ytd < prev.total ∧ asOf.year = prev.date.year) →
      ppdUpdate db asOf ytd force = .ok (dropDupKeepLast (ppdUpdatedSeries db asOf ytd))) := by
  rw [ppdUpdate_reduce db asOf ytd force prev h]
  by_cases hc : force = false ∧ ytd < prev.total ∧ asOf.year = prev.date.year
  · rw [if_pos hc]
    exact ⟨⟨fun _ => hc, fun _ => rfl⟩, fun hn => absurd hc hn⟩
  · rw [if_neg hc]
    exact ⟨⟨fun he => absurd he (by simp), fun hcc => absurd hcc hc⟩, fun _ => rfl⟩

/-- Witness for C2 at a concrete input: previous row (year 2024, total
100), new scrape (year 2024, total 90), no force flag: the same-year
decrease is reported as a monotonicity violation. -/
theorem ppdUpdate_monotonicity_iff_witness :
    (ppdUpdate [⟨⟨2024, 300⟩, 100⟩] ⟨2024, 301⟩ 90 false = .error monotonicityMsg ↔
      (false = false ∧ 90 < (⟨⟨2024, 300⟩, 100⟩ : HRow).total ∧
        (⟨2024, 301⟩ : MDate).year = (⟨⟨2024, 300⟩, 100⟩ : HRow).date.year)) ∧
    (¬ (false = false ∧ 90 < (⟨⟨2024, 300⟩, 100⟩ : HRow).total ∧
        (⟨2024, 301⟩ : MDate).year = (⟨⟨2024, 300⟩, 100⟩ : HRow).date.year) →
      ppdUpdate [⟨⟨2024, 300⟩, 100⟩] ⟨2024, 301⟩ 90 false =
        .ok (dropDupKeepLast (ppdUpdatedSeries [⟨⟨2024, 300⟩, 100⟩] ⟨2024, 301⟩ 90))) :=
  ppdUpdate_monotonicity_iff [⟨⟨2024, 300⟩, 100⟩] ⟨2024, 301⟩ 90 false ⟨⟨2024, 300⟩, 100⟩
    (by decide)

/-- C6: when the update succeeds, a scrape whose as-of date equals the last
row date replaces that row (series length unchanged), a different as-of
date appends (length grows by one), and the persisted output is the
updated series deduplicated by date keeping the last occurrence, hence has
at most one row per date. -/
theorem ppdUpdate_replace_append (db : List HRow) (asOf : MDate) (ytd : Nat) (force : Bool)
    (out : List HRow) (lastRow : HRow)
    (hlast : db.getLast? = some lastRow)
    (hok : ppdUpdate db asOf ytd force = .ok out) :
    (asOf = lastRow.date → (ppdUpdatedSeries db asOf ytd).length = db.length) ∧
    (asOf ≠ lastRow.date → (ppdUpdatedSeries db asOf ytd).length = db.length + 1) ∧
    out = dropDupKeepLast (ppdUpdatedSeries db asOf ytd) ∧
    ((out.map (fun r => r.date)).Nodup) := by
  have hne : db ≠ [] := by
    intro hnil
    rw [hnil] at hlast
    exact Option.noConfusion hlast
  have hpos : 0 < db.length := List.length_pos.mpr hne
  have hout : out = dropDupKeepLast (ppdUpdatedSeries db asOf ytd) := by
    cases hp : (ppdDropSame db asOf).getLast? with
    | none =>
      simp only [ppdUpdate, hlast, ppdUpdatedSeries_getLast, ppdUpdatedSeries_dropLast, hp]
        at hok
      exact Except.noConfusion hok
    | some prev =>
      rw [ppdUpdate_reduce db asOf ytd force prev hp] at hok
      by_cases hc : force = false ∧ ytd < prev.total ∧ asOf.year = prev.date.year
      · rw [if_pos hc] at hok
        exact absurd hok (by simp)
      · rw [if_neg hc] at hok
        exact (Except.ok.inj hok).symm
  refine ⟨fun heq => ?_, fun hne2 => ?_, hout, ?_⟩
  · simp only [ppdUpdatedSeries, ppdDropSame, hlast]
    rw [if_pos heq]
    simp only [List.length_append, List.length_dropLast, List.length_cons, List.length_nil]
    omega
  · simp only [ppdUpdatedSeries, ppdDropSame, hlast]
    rw [if_neg hne2]
    simp
  · rw [hout]
    exact nodup_dates_dropDupKeepLast _

/-- Witness for C6 at a concrete input: a one-row series (year 2024,
total 5) updated with a later as-of date and total 7 succeeds, appends,
and persists two rows with distinct dates. -/
theorem ppdUpdate_replace_append_witness :
    ((⟨2024, 2⟩ : MDate) = (⟨⟨2024, 1⟩, 5⟩ : HRow).date →
      (ppdUpdatedSeries [⟨⟨2024, 1⟩, 5⟩] ⟨2024, 2⟩ 7).length = [(⟨⟨2024, 1⟩, 5⟩ : HRow)].length) ∧
    ((⟨2024, 2⟩ : MDate) ≠ (⟨⟨2024, 1⟩, 5⟩ : HRow).date →
      (ppdUpdatedSeries [⟨⟨2024, 1⟩, 5⟩] ⟨2024, 2⟩ 7).length =
        [(⟨⟨2024, 1⟩, 5⟩ : HRow)].length + 1) ∧
    dropDupKeepLast (ppdUpdatedSeries [⟨⟨2024, 1⟩, 5⟩] ⟨2024, 2⟩ 7) =
      dropDupKeepLast (ppdUpdatedSeries [⟨⟨2024, 1⟩, 5⟩] ⟨2024, 2⟩ 7) ∧
    (((dropDupKeepLast (ppdUpdatedSeries [⟨⟨2024, 1⟩, 5⟩] ⟨2024, 2⟩ 7)).map
        (fun r => r.date)).Nodup) :=
  ppdUpdate_replace_append [⟨⟨2024, 1⟩, 5⟩] ⟨2024, 2⟩ 7 false
    (dropDupKeepLast (ppdUpdatedSeries [⟨⟨2024, 1⟩, 5⟩] ⟨2024, 2⟩ 7)) ⟨⟨2024, 1⟩, 5⟩
    (by decide) (by rfl)

/-- C7: the derived age_group bucket agrees with the boundaries the spec
states (age < 18, 18 ≤ age ≤ 30, 30 < age ≤ 45, age > 45, missing =
Unknown) for every possible age. -/
theorem ageGroup_matches_spec (age : Option Int) : ageGroup age = specAgeGroup age := by
  cases age with
  | none => rfl
  | some a =>
    show (if a ≤ 17 then _ else _) = (if a < 18 then _ else _)
    split_ifs <;> first | rfl | omega

/-- C4: evaluating `courts.run` at a concrete input where the persisted
index already records dc_key X with has_court_case true and the shootings
data contains X and Y: X is correctly not re-submitted, but the index
written back is exactly the submitted keys with their scrape results, so
the previously recorded true entry for X is lost. -/
theorem courtsRun_drops_previous_true :
    courtsRun (some [("X", true)]) ["X", "Y"] [] = [("Y", false)] ∧
    "X" ∉ (courtsRun (some [("X", true)]) ["X", "Y"] []).map Prod.fst := by
  decide

/-- When the index has pairwise distinct keys, at most one index entry
matches a given key. -/
theorem length_filter_key_le_one (l : List (String × Bool))
    (hnd : (l.map Prod.fst).Nodup) (k : String) :
    (l.filter (fun kv => kv.1 == k)).length ≤ 1 := by
  induction l with
  | nil => simp
  | cons kv rest ih =>
    simp only [List.map_cons, List.nodup_cons] at hnd
    obtain ⟨hnotin, hnd2⟩ := hnd
    by_cases hk : kv.1 = k
    · have hrest : rest.filter (fun kv2 => kv2.1 == k) = [] := by
        rw [List.filter_eq_nil_iff]
        intro kv2 hkv2
        simp only [beq_iff_eq]
        intro he
        exact hnotin (hk ▸ he ▸ List.mem_map_of_mem Prod.fst hkv2)
      simp [List.filter_cons, hk, hrest]
    · simp only [List.filter_cons, beq_iff_eq, hk, if_false]
      exact ih hnd2

/-- With a unique-keyed index, the merged rows carry exactly the input
keys, in order. -/
theorem mergeRows_map_fst (existing : List (String × Bool))
    (hnd : (existing.map Prod.fst).Nodup) :
    ∀ keys : List String, (mergeRows keys existing).map Prod.fst = keys := by
  intro keys
  induction keys with
  | nil => rfl
  | cons k ks ih =>
    have hgroup :
        ((if (existing.filter (fun kv => kv.1 == k)).isEmpty then [(k, none)]
          else (existing.filter (fun kv => kv.1 == k)).map
            (fun kv => (k, some kv.2))).map Prod.fst) = [k] := by
      cases hms : existing.filter (fun kv => kv.1 == k) with
      | nil => simp
      | cons m ms =>
        have hle := length_filter_key_le_one existing hnd k
        rw [hms] at hle
        have hms0 : ms = [] := by
          cases ms with
          | nil => rfl
          | cons m2 ms2 => simp at hle
        subst hms0
        simp
    have hstep : mergeRows (k :: ks) existing =
        (if (existing.filter (fun kv => kv.1 == k)).isEmpty then [(k, none)]
          else (existing.filter (fun kv => kv.1 == k)).map
            (fun kv => (k, some kv.2))) ++ mergeRows ks existing := by
      simp only [mergeRows, List.flatMap_cons]
    rw [hstep, List.map_append, hgroup, ih]
    rfl

/-- C5 (amended): with a unique-keyed index, every merged row whose dc_key
the index marks true gets has_court_case true, every row whose dc_key is
absent from the index gets false (never null), and the output keys are
exactly the batch keys; but re-applying the merge to the already-merged
batch raises an error instead of returning the same result. -/
theorem courtsMerge_semantics (keys : List String) (existing : List (String × Bool))
    (rows : List (String × Option Bool))
    (hnd : (existing.map Prod.fst).Nodup)
    (hok : courtsMerge (CFrame.noCol keys) existing = .ok (.withCol rows)) :
    (∀ kv ∈ rows, ((kv.1, true) ∈ existing → kv.2 = some true) ∧
        ((∀ b, (kv.1, b) ∉ existing) → kv.2 = some false)) ∧
    rows.map Prod.fst = keys ∧
    (∃ msg, courtsMerge (CFrame.withCol rows) existing = .error msg) := by
  have hrows : rows = (mergeRows keys existing).map (fun kv => (kv.1, some (kv.2.getD false))) := by
    simp only [courtsMerge, Except.ok.injEq, CFrame.withCol.injEq] at hok
    exact hok.symm
  subst hrows
  refine ⟨?_, ?_, ⟨_, rfl⟩⟩
  · intro kv hkv
    rcases List.mem_map.mp hkv with ⟨kv0, hkv0, hkveq⟩
    rcases List.mem_flatMap.mp hkv0 with ⟨k, hkmem, hgrp⟩
    cases hms : existing.filter (fun kv2 => kv2.1 == k) with
    | nil =>
      rw [hms] at hgrp
      have hgrp2 : kv0 = (k, none) := by simpa using hgrp
      subst hgrp2
      subst hkveq
      constructor
      · intro htrue
        have hmem : (k, true) ∈ existing.filter (fun kv2 => kv2.1 == k) :=
          List.mem_filter.mpr ⟨htrue, by simp⟩
        rw [hms] at hmem
        exact absurd hmem (List.not_mem_nil _)
      · intro _
        rfl
    | cons m ms =>
      rw [hms] at hgrp
      have hgrp2 : kv0 ∈ (m :: ms).map (fun kv => (k, some kv.2)) := by
        simpa using hgrp
      rcases List.mem_map.mp hgrp2 with ⟨kv2, hkv2, hkv2eq⟩
      rw [← hms] at hkv2
      have hkv2mem : kv2 ∈ existing := (List.mem_filter.mp hkv2).1
      have hkv2key : kv2.1 = k := by
        have hb := (List.mem_filter.mp hkv2).2
        simpa using hb
      subst hkveq
      subst hkv2eq
      constructor
      · intro htrue
        have heq : kv2 = (k, true) :=
          List.inj_on_of_nodup_map hnd hkv2mem htrue (by simpa using hkv2key)
        simp [heq]
      · intro habs
        exact absurd (show (k, kv2.2) ∈ existing by
          have : kv2 = (k, kv2.2) := by
            cases kv2
            simpa using hkv2key
          exact this ▸ hkv2mem) (habs kv2.2)
  · rw [List.map_map]
    have : (Prod.fst ∘ fun kv : String × Option Bool => (kv.1, some (kv.2.getD false))) =
        Prod.fst := rfl
    rw [this]
    exact mergeRows_map_fst existing hnd keys

/-- Witness for C5 at a concrete input: batch keys 1 and 2, index marking
key 1 true; the merge yields true for key 1 and false for key 2, and the
second application fails. -/
theorem courtsMerge_semantics_witness :
    (∀ kv ∈ [("1", some true), ("2", some false)],
        ((kv.1, true) ∈ [("1", true)] → kv.2 = some true) ∧
        ((∀ b, (kv.1, b) ∉ [("1", true)]) → kv.2 = some false)) ∧
    [("1", some true), ("2", some false)].map Prod.fst = ["1", "2"] ∧
    (∃ msg, courtsMerge (CFrame.withCol [("1", some true), ("2", some false)])
        [("1", true)] = .error msg) :=
  courtsMerge_semantics ["1", "2"] [("1", true)] [("1", some true), ("2", some false)]
    (by decide) (by rfl)

/-- C5 counterexample to the claim as stated: the merge is not idempotent;
applying it twice to a concrete one-row batch fails with a KeyError
instead of yielding the once-merged result. -/
theorem courtsMerge_twice_ne_once :
    (courtsMerge (CFrame.noCol ["1"]) [("1", true)]).bind
        (fun d => courtsMerge d [("1", true)]) ≠
      courtsMerge (CFrame.noCol ["1"]) [("1", true)] :=
  fun h => Except.noConfusion h

/-- C9: updating meta.json preserves every existing key other than the
two subsystem timestamps, and the legacy unified key `last_updated` is
absent from the written dict. -/
theorem dailyUpdateMeta_frame (existingMeta : String → Option String) (now : String)
    (homicidesOnly shootingsOnly : Bool) (k : String)
    (h1 : k ≠ "last_updated_homicides") (h2 : k ≠ "last_updated_shootings")
    (h3 : k ≠ "last_updated") :
    dailyUpdateMeta existingMeta now homicidesOnly shootingsOnly k = existingMeta k ∧
    dailyUpdateMeta existingMeta now homicidesOnly shootingsOnly "last_updated" = none := by
  constructor
  · simp only [dailyUpdateMeta, metaFileUpdate]
    rw [if_neg (fun hc => h1 hc.2), if_neg (fun hc => h2 hc.2)]
    exact if_neg h3
  · simp only [dailyUpdateMeta, metaFileUpdate]
    rw [if_neg (fun hc => absurd hc.2 (by decide)),
      if_neg (fun hc => absurd hc.2 (by decide))]
    simp

/-- Witness for C9 at a concrete input: an unrelated key `color` survives
the update and the legacy key is dropped. -/
theorem dailyUpdateMeta_frame_witness :
    dailyUpdateMeta (fun k => if k = "color" then some "blue" else none)
        "2026-01-01 00:00:00" false false "color" =
      (fun k : String => if k = "color" then some "blue" else none) "color" ∧
    dailyUpdateMeta (fun k => if k = "color" then some "blue" else none)
        "2026-01-01 00:00:00" false false "last_updated" = none :=
  dailyUpdateMeta_frame (fun k => if k = "color" then some "blue" else none)
    "2026-01-01 00:00:00" false false "color" (by decide) (by decide) (by decide)

/-- Membership in the insertion of a year. -/
theorem mem_insUniq (z y : Int) : ∀ l : List Int, z ∈ insUniq y l ↔ z = y ∨ z ∈ l := by
  intro l
  induction l with
  | nil => simp [insUniq]
  | cons x xs ih =>
    simp only [insUniq]
    by_cases h1 : y = x
    · rw [if_pos h1]
      subst h1
      simp only [List.mem_cons]
      tauto
    · rw [if_neg h1]
      by_cases h2 : y > x
      · rw [if_pos h2]
        simp only [List.mem_cons]
      · rw [if_neg h2]
        simp only [List.mem_cons, ih]
        tauto

/-- Insertion preserves the strictly descending order. -/
theorem sorted_insUniq (y : Int) :
    ∀ l : List Int, l.Sorted (· > ·) → (insUniq y l).Sorted (· > ·) := by
  intro l
  induction l with
  | nil => intro _; simp [insUniq]
  | cons x xs ih =>
    intro hs
    rw [List.sorted_cons] at hs
    obtain ⟨hx, hxs⟩ := hs
    simp only [insUniq]
    by_cases h1 : y = x
    · rw [if_pos h1]
      exact List.sorted_cons.mpr ⟨hx, hxs⟩
    · rw [if_neg h1]
      by_cases h2 : y > x
      · rw [if_pos h2]
        refine List.sorted_cons.mpr ⟨?_, List.sorted_cons.mpr ⟨hx, hxs⟩⟩
        intro b hb
        rcases List.mem_cons.mp hb with rfl | hb2
        · exact h2
        · exact lt_trans (hx b hb2) h2
      · rw [if_neg h2]
        refine List.sorted_cons.mpr ⟨?_, ih hxs⟩
        intro b hb
        rcases (mem_insUniq b y xs).mp hb with rfl | hb2
        · omega
        · exact hx b hb2

/-- The manifest years are strictly descending. -/
theorem sorted_uniqueYearsDesc (ys : List Int) : (uniqueYearsDesc ys).Sorted (· > ·) := by
  induction ys with
  | nil => simp [uniqueYearsDesc]
  | cons y ys ih => exact sorted_insUniq y _ ih

/-- The manifest years are exactly the years present in the input. -/
theorem mem_uniqueYearsDesc (z : Int) (ys : List Int) :
    z ∈ uniqueYearsDesc ys ↔ z ∈ ys := by
  induction ys with
  | nil => simp [uniqueYearsDesc]
  | cons y ys ih =>
    rw [show uniqueYearsDesc (y :: ys) = insUniq y (uniqueYearsDesc ys) from rfl,
      mem_insUniq]
    simp [ih, List.mem_cons]

/-- C8: the persister emits the manifest as the distinct years present in
the data sorted strictly descending (hence duplicate-free), writes exactly
one partition per manifest year, and each partition is exactly the rows
of the full current dataset whose date falls in that year. -/
theorem victimsSave_partitions (data : List SRow) :
    ((victimsSave data).1.Sorted (· > ·)) ∧
    (victimsSave data).1.Nodup ∧
    (∀ y : Int, y ∈ (victimsSave data).1 ↔ y ∈ data.map rowYear) ∧
    (victimsSave data).2.map Prod.fst = (victimsSave data).1 ∧
    (∀ p ∈ (victimsSave data).2, p.2 = data.filter (fun r => rowYear r == p.1)) := by
  refine ⟨sorted_uniqueYearsDesc _, (sorted_uniqueYearsDesc _).nodup,
    fun y => mem_uniqueYearsDesc y _, ?_, ?_⟩
  · have hfun : ∀ l : List Int,
        (l.map (fun y => (y, data.filter (fun r => rowYear r == y)))).map Prod.fst = l := by
      intro l
      induction l with
      | nil => rfl
      | cons a l ih => simp only [List.map_cons, ih]
    exact hfun _
  · intro p hp
    simp only [victimsSave, List.mem_map] at hp
    rcases hp with ⟨y, hy, rfl⟩
    rfl

/-- C10: when the fetch skeleton succeeds, every returned record has
officer_involved equal to N (officer-involved rows are filtered out before
everything else), and when checks are active the anomaly tolerances were
applied to the filtered batch size. -/
theorem victimsGet_officer_involved (ignoreChecks : Bool) (now : MDate) (raw : List RawRow)
    (oldLen : Nat) (out : List RawRow)
    (hok : victimsGet ignoreChecks now raw oldLen = .ok out) :
    (∀ r ∈ out, r.officerInvolved = "N") ∧
    (ignoreChecks = false →
      (out.length : Int) - (oldLen : Int) ≤ 100 ∧
        (oldLen : Int) - (out.length : Int) ≤ 10) := by
  unfold victimsGet at hok
  by_cases hmiss : ((raw.filter (fun r => r.officerInvolved == "N")).filter
      (fun r => r.dcKey.isNone)).length ≠ 0 ∧ ignoreChecks = false
  · rw [if_pos hmiss] at hok
    exact Except.noConfusion hok
  · rw [if_neg hmiss] at hok
    cases hac : anomalyCheck ignoreChecks
        (((raw.filter (fun r => r.officerInvolved == "N")).filter
          (fun r => !(mdateAfter r.date now))).length) oldLen with
    | error e =>
      rw [hac] at hok
      exact Except.noConfusion hok
    | ok u =>
      rw [hac] at hok
      have hout : out = (raw.filter (fun r => r.officerInvolved == "N")).filter
          (fun r => !(mdateAfter r.date now)) := (Except.ok.inj hok).symm
      constructor
      · intro r hr
        rw [hout] at hr
        have hr2 : r ∈ raw.filter (fun r => r.officerInvolved == "N") :=
          List.mem_of_mem_filter hr
        have := List.of_mem_filter hr2
        simpa using this
      · intro hig
        rw [hig] at hac
        rw [hout]
        unfold anomalyCheck at hac
        rw [if_neg (by simp)] at hac
        by_cases hc1 : (((raw.filter (fun r => r.officerInvolved == "N")).filter
            (fun r => !(mdateAfter r.date now))).length : Int) - (oldLen : Int) > 100
        · rw [if_pos hc1] at hac
          exact Except.noConfusion hac
        · rw [if_neg hc1] at hac
          by_cases hc2 : (oldLen : Int) -
              (((raw.filter (fun r => r.officerInvolved == "N")).filter
                (fun r => !(mdateAfter r.date now))).length : Int) > 10
          · rw [if_pos hc2] at hac
            exact Except.noConfusion hac
          · exact ⟨by omega, by omega⟩

/-- Clearing geometries preserves the row count. -/
theorem length_clearOutside (city : Pt → Bool) (rows : List GRow) :
    (clearOutside city rows).length = rows.length := by
  unfold clearOutside
  exact List.length_map _ _

/-- Splitting a list by a predicate preserves the total row count. -/
theorem length_filter_split (p : GRow → Bool) (l : List GRow) :
    (l.filter (fun r => !(p r))).length + (l.filter p).length = l.length := by
  rw [Nat.add_comm]
  exact (List.length_eq_length_filter_add p).symm

/-- The geometry-recovery merge preserves the row count: a left merge
against a unique-keyed right side yields exactly one row per left row. -/
theorem length_recoverGeometry (incidents : List (String × Pt)) (rows : List GRow) :
    (recoverGeometry incidents rows).length = rows.length := by
  unfold recoverGeometry
  by_cases h : 0 < incidents.length
  · rw [if_pos h, List.length_append, List.length_map]
    exact length_filter_split (fun r => r.geometry.isNone) rows
  · rw [if_neg h]

/-- A left spatial join emits at least one row per input row. -/
theorem sjoinOne_ne_nil (layer : GeoLayer) (i : Nat) (r : GRow) :
    sjoinOne layer i r ≠ [] := by
  unfold sjoinOne
  by_cases h : (layer.polys.filter (fun pg => geomWithin r.geometry pg.1)).isEmpty
  · rw [if_pos h]
    simp
  · rw [if_neg h]
    intro hmap
    rw [List.map_eq_nil_iff] at hmap
    rw [hmap] at h
    exact h rfl

/-- Every row emitted by the spatial join of one row carries that row's
index. -/
theorem sjoinOne_fst (layer : GeoLayer) (i : Nat) (r : GRow) :
    ∀ x ∈ sjoinOne layer i r, x.1 = i := by
  intro x hx
  unfold sjoinOne at hx
  by_cases h : (layer.polys.filter (fun pg => geomWithin r.geometry pg.1)).isEmpty
  · rw [if_pos h] at hx
    rcases List.mem_singleton.mp hx with rfl
    rfl
  · rw [if_neg h] at hx
    rcases List.mem_map.mp hx with ⟨pg, _, rfl⟩
    rfl

/-- Rows whose index was already seen are all removed by the first-match
deduplication. -/
theorem dedupFirst_skip (seen : List Nat) (ys : List (Nat × GRow)) :
    ∀ xs : List (Nat × GRow), (∀ x ∈ xs, x.1 ∈ seen) →
      dedupFirst seen (xs ++ ys) = dedupFirst seen ys := by
  intro xs
  induction xs with
  | nil => intro _; rfl
  | cons x xs ih =>
    intro h
    simp only [List.cons_append, dedupFirst]
    rw [if_pos (h x (List.mem_cons_self _ _))]
    exact ih (fun y hy => h y (List.mem_cons_of_mem _ hy))

/-- The first-match deduplication of a left spatial join keeps exactly one
row per input row: the join fans out per containing polygon, indices
strictly increase across input rows, and no fresh index was seen before. -/
theorem dedupFirst_sjoinAux (layer : GeoLayer) :
    ∀ (rows : List GRow) (i : Nat) (seen : List Nat),
      (∀ j, i ≤ j → j ∉ seen) →
      (dedupFirst seen (sjoinAux layer i rows)).length = rows.length := by
  intro rows
  induction rows with
  | nil => intro i seen _; rfl
  | cons r rs ih =>
    intro i seen hseen
    show (dedupFirst seen (sjoinOne layer i r ++ sjoinAux layer (i + 1) rs)).length =
      rs.length + 1
    cases hso : sjoinOne layer i r with
    | nil => exact absurd hso (sjoinOne_ne_nil layer i r)
    | cons q qs =>
      have hq1 : q.1 = i := sjoinOne_fst layer i r q (hso ▸ List.mem_cons_self q qs)
      have hqs : ∀ x ∈ qs, x.1 = i := fun x hx =>
        sjoinOne_fst layer i r x (hso ▸ List.mem_cons_of_mem q hx)
      simp only [List.cons_append, dedupFirst]
      rw [if_neg (hq1 ▸ hseen i (le_refl i))]
      have hnext : ∀ j, i + 1 ≤ j → j ∉ q.1 :: seen := by
        intro j hj hmem
        rcases List.mem_cons.mp hmem with hjq | hjseen
        · rw [hq1] at hjq
          omega
        · exact hseen j (by omega) hjseen
      have hskip : dedupFirst (q.1 :: seen) (qs ++ sjoinAux layer (i + 1) rs) =
          dedupFirst (q.1 :: seen) (sjoinAux layer (i + 1) rs) :=
        dedupFirst_skip (q.1 :: seen) _ qs
          (fun x hx => by rw [hqs x hx, ← hq1]; exact List.mem_cons_self _ _)
      show (q.2 :: dedupFirst (q.1 :: seen) (qs ++ sjoinAux layer (i + 1) rs)).length =
        rs.length + 1
      rw [hskip]
      simp only [List.length_cons]
      rw [ih (i + 1) (q.1 :: seen) hnext]

/-- One per-layer join step preserves the row count. -/
theorem length_addGeoInfo (layer : GeoLayer) (rows : List GRow) :
    (addGeoInfo layer rows).length = rows.length :=
  dedupFirst_sjoinAux layer rows 0 [] (fun j _ h => absurd h (List.not_mem_nil j))

/-- The whole per-layer join pipeline preserves the row count. -/
theorem length_foldl_addGeoInfo (layers : List GeoLayer) :
    ∀ rows : List GRow,
      (layers.foldl (fun acc layer => addGeoInfo layer acc) rows).length = rows.length := by
  induction layers with
  | nil => intro rows; rfl
  | cons l ls ih =>
    intro rows
    show (ls.foldl (fun acc layer => addGeoInfo layer acc) (addGeoInfo l rows)).length =
      rows.length
    rw [ih (addGeoInfo l rows), length_addGeoInfo]

/-- The neighborhood consistency pass preserves the row count. -/
theorem length_clearNoNeighborhood (rows : List GRow) :
    (clearNoNeighborhood rows).length = rows.length := by
  unfold clearNoNeighborhood
  exact List.length_map _ _

/-- C1: the geographic-enrichment step always returns a batch with
exactly as many rows as it received; the containment check, the
geometry-recovery merge, and every per-layer spatial join with first-match
deduplication preserve the row count, so the fatal row-count check never
trips. -/
theorem addGeographicInfo_row_count (city : Pt → Bool) (incidents : List (String × Pt))
    (layers : List GeoLayer) (rows : List GRow) :
    ∃ out, addGeographicInfo city incidents layers rows = .ok out ∧
      out.length = rows.length := by
  have hlen : (clearNoNeighborhood (layers.foldl (fun acc layer => addGeoInfo layer acc)
      (recoverGeometry incidents (clearOutside city rows)))).length = rows.length := by
    rw [length_clearNoNeighborhood, length_foldl_addGeoInfo, length_recoverGeometry,
      length_clearOutside]
  refine ⟨_, ?_, hlen⟩
  unfold addGeographicInfo
  rw [if_neg (fun hne => hne hlen)]

/-- Witness for C10 at a concrete input: a feed with one regular row and
one officer-involved row; the fetch succeeds, returns only the regular
row, and the tolerances hold for the filtered size. -/
theorem victimsGet_officer_involved_witness :
    (∀ r ∈ [(⟨some "1", "N", ⟨2024, 1⟩⟩ : RawRow)], r.officerInvolved = "N") ∧
    (false = false →
      (([(⟨some "1", "N", ⟨2024, 1⟩⟩ : RawRow)].length : Int) - ((1 : Nat) : Int) ≤ 100 ∧
        ((1 : Nat) : Int) - ([(⟨some "1", "N", ⟨2024, 1⟩⟩ : RawRow)].length : Int) ≤ 10)) :=
  victimsGet_officer_involved false ⟨2025, 1⟩
    [⟨some "1", "N", ⟨2024, 1⟩⟩, ⟨some "2", "Y", ⟨2024, 1⟩⟩] 1
    [⟨some "1", "N", ⟨2024, 1⟩⟩] (by rfl)

end GVDash
